import Mathlib

/-!
Verification of the patch-to-commit pipeline of the async-code server
(`server/tasks.py` and `server/github_integration.py`).

The Python sources are shallowly embedded: the unified-diff reconstructor
and the patch splitter become pure Lean functions over lists of lines, and
every call on the remote GitHub API becomes a deterministic transition on
an explicit `GH` state.  Remote failures (the Python `except` paths) are
driven by failure-injection fields of the state, and every issued API call
is recorded in an event log so that claims about which calls are made can
be stated directly.
-/

/-! ## Python string primitives

Character-based translations of the Python `str` operations used by the
source: `startswith`, slicing `s[n:]` and `s[:n]`, `strip() == ''`,
`split('\n')` and `'\n'.join(...)`. -/

def pyStartsWith (s pre : String) : Bool :=
  pre.data.isPrefixOf s.data

def pyDrop (s : String) (n : Nat) : String :=
  ⟨s.data.drop n⟩

def pyTake (s : String) (n : Nat) : String :=
  ⟨s.data.take n⟩

def pyStripEmpty (s : String) : Bool :=
  s.data.all (fun c => c.isWhitespace)

def splitNlAux : List Char → List Char → List String
  | [], acc => [⟨acc.reverse⟩]
  | c :: rest, acc =>
    if c = '\n' then ⟨acc.reverse⟩ :: splitNlAux rest []
    else splitNlAux rest (c :: acc)

def pySplitLines (s : String) : List String :=
  splitNlAux s.data []

def joinNl : List String → String
  | [] => ""
  | [s] => s
  | s :: rest => s ++ "\n" ++ joinNl rest

/-! ## Association lists

Python `dict` assignment (`files_to_update[current_file] = ...`) keeps the
first-insertion position and overwrites the value; `aupsert` mirrors that.
`alookup` is keyed lookup, `aremove` deletes every binding of a key. -/

def alookup {α β : Type} [DecidableEq α] (k : α) : List (α × β) → Option β
  | [] => none
  | (k0, v0) :: rest => if k0 = k then some v0 else alookup k rest

def aupsert {α β : Type} [DecidableEq α] : List (α × β) → α → β → List (α × β)
  | [], k, v => [(k, v)]
  | (k0, v0) :: rest, k, v =>
    if k0 = k then (k0, v) :: rest else (k0, v0) :: aupsert rest k v

def aremove {α β : Type} [DecidableEq α] (k : α) : List (α × β) → List (α × β)
  | [] => []
  | (k0, v0) :: rest =>
    if k0 = k then aremove k rest else (k0, v0) :: aremove k rest

/-! ## Unified-diff reconstructor

`apply_diff_to_content` from `server/tasks.py` (identical in
`server/github_integration.py`).  The walk over the hunk body is
`walkLines`; each constructor case mirrors one branch of the Python
`elif` chain, in source order. -/

def walkLines : List String → List String
  | [] => []
  | l :: rest =>
    if pyStartsWith l "+++" || pyStartsWith l "---" then walkLines rest
    else if pyStartsWith l "+" then pyDrop l 1 :: walkLines rest
    else if pyStartsWith l " " then pyDrop l 1 :: walkLines rest
    else if pyStartsWith l "-" then walkLines rest
    else if pyStripEmpty l then walkLines rest
    else if pyStartsWith l "diff --git" || pyStartsWith l "--- a/" then []
    else walkLines rest

def findDiffStartAux : List String → Nat → Nat
  | [], _ => 0
  | l :: rest, i =>
    if pyStartsWith l "@@" then i + 1 else findDiffStartAux rest (i + 1)

def findDiffStart (ls : List String) : Nat :=
  findDiffStartAux ls 0

def apply_diff_to_content (original : String) (diffLines : List String)
    (filename : String) : String :=
  let diffStart := findDiffStart diffLines
  let resultLines := walkLines (diffLines.drop diffStart)
  if resultLines.isEmpty then original else joinNl resultLines

/-! ## Diff lines as data

`DiffLine` is the tagged variant of the spec's data model; `renderDiffLine`
produces the corresponding raw text line, and `diffBodies` is the list of
bodies of the Context and Added lines in order. -/

inductive DiffLine where
  | added : String → DiffLine
  | removed : String → DiffLine
  | context : String → DiffLine
deriving DecidableEq

def renderDiffLine : DiffLine → String
  | .added t => "+" ++ t
  | .removed t => "-" ++ t
  | .context t => " " ++ t

def diffBodies : List DiffLine → List String
  | [] => []
  | .added t :: rest => t :: diffBodies rest
  | .context t :: rest => t :: diffBodies rest
  | .removed _ :: rest => diffBodies rest

def noDoublePlusAdded : List DiffLine → Bool
  | [] => true
  | .added t :: rest => !(pyStartsWith t "++") && noDoublePlusAdded rest
  | .removed _ :: rest => noDoublePlusAdded rest
  | .context _ :: rest => noDoublePlusAdded rest

/-! ## Remote GitHub API model

Each PyGithub call used by the source becomes a transition on `GH`.
Commits, trees and blobs are content-addressed by `Nat` ids allocated from
`nextId`; `refs` maps branch names to commit ids.  A `fail*` field set for
a call makes that call raise (the Python `except` paths); every call
pushes an `Event` onto `log` whether or not it raises, newest first. -/

inductive Event where
  | getCommitEv : String → Event
  | createBlobEv : String → Event
  | createTreeEv : Event
  | createCommitEv : Event
  | editRefEv : String → Event
  | getContentsEv : String → Event
  | updateFileEv : String → Event
  | createFileEv : String → Event
  | getBranchEv : String → Event
  | createRefEv : String → Nat → Event
  | deleteRefEv : String → Event
  | listBranchesEv : Event
  | createPullEv : Event
deriving DecidableEq

structure Commit where
  tree : Nat
  parents : List Nat
  message : String
deriving DecidableEq

structure GH where
  refs : List (String × Nat)
  commits : List (Nat × Commit)
  trees : List (Nat × List (String × String))
  blobs : List (Nat × String)
  defaultBranch : String
  nextId : Nat
  log : List Event
  failGetCommit : Bool
  failCreateBlob : String → Bool
  failCreateTree : Bool
  failCreateCommit : Bool
  failEditRef : Bool
  failGetContents : String → Bool
  failUpdateFile : String → Bool
  failCreateFile : String → Bool
  failGetBranch : String → Bool
  failCreateRef : String → Bool
  failDeleteRef : String → Bool
  failListBranches : Bool
  failCreatePull : Bool

def push (e : Event) (s : GH) : GH :=
  { s with log := e :: s.log }

def getCommit (branch : String) (s : GH) : Option (Nat × Commit) × GH :=
  let s1 := push (.getCommitEv branch) s
  if s.failGetCommit then (none, s1)
  else
    match alookup branch s.refs with
    | none => (none, s1)
    | some cid =>
      match alookup cid s.commits with
      | none => (none, s1)
      | some c => (some (cid, c), s1)

def createBlob (content : String) (s : GH) : Option Nat × GH :=
  let s1 := push (.createBlobEv content) s
  if s.failCreateBlob content then (none, s1)
  else (some s1.nextId,
    { s1 with blobs := (s1.nextId, content) :: s1.blobs, nextId := s1.nextId + 1 })

def createTree (elems : List (String × Nat)) (baseTree : Nat) (s : GH) :
    Option Nat × GH :=
  let s1 := push .createTreeEv s
  if s.failCreateTree then (none, s1)
  else
    let base := (alookup baseTree s1.trees).getD []
    let newMap := elems.foldl
      (fun m pe => aupsert m pe.1 ((alookup pe.2 s1.blobs).getD "")) base
    (some s1.nextId,
      { s1 with trees := (s1.nextId, newMap) :: s1.trees, nextId := s1.nextId + 1 })

def createCommit (msg : String) (tree : Nat) (parents : List Nat) (s : GH) :
    Option Nat × GH :=
  let s1 := push .createCommitEv s
  if s.failCreateCommit then (none, s1)
  else (some s1.nextId,
    { s1 with commits := (s1.nextId, ⟨tree, parents, msg⟩) :: s1.commits,
              nextId := s1.nextId + 1 })

def editRef (branch : String) (cid : Nat) (s : GH) : Option Unit × GH :=
  let s1 := push (.editRefEv branch) s
  if s.failEditRef then (none, s1)
  else
    match alookup branch s.refs with
    | none => (none, s1)
    | some _ => (some (), { s1 with refs := (branch, cid) :: s1.refs })

def branchTree (branch : String) (s : GH) : Option (List (String × String)) :=
  match alookup branch s.refs with
  | none => none
  | some cid =>
    match alookup cid s.commits with
    | none => none
    | some c => alookup c.tree s.trees

def getContentsPure (branch path : String) (s : GH) : Option String :=
  if s.failGetContents path then none
  else
    match branchTree branch s with
    | none => none
    | some m => alookup path m

def getContents (path branch : String) (s : GH) : Option String × GH :=
  (getContentsPure branch path s, push (.getContentsEv path) s)

def writeFileCommit (branch path content msg : String) (s : GH) :
    Option Unit × GH :=
  match alookup branch s.refs with
  | none => (none, s)
  | some cid =>
    match alookup cid s.commits with
    | none => (none, s)
    | some c =>
      let base := (alookup c.tree s.trees).getD []
      let tid := s.nextId
      let ncid := s.nextId + 1
      (some (),
        { s with trees := (tid, aupsert base path content) :: s.trees,
                 commits := (ncid, ⟨tid, [cid], msg⟩) :: s.commits,
                 refs := (branch, ncid) :: s.refs,
                 nextId := s.nextId + 2 })

def updateFile (path msg content branch : String) (s : GH) : Option Unit × GH :=
  let s1 := push (.updateFileEv path) s
  if s.failUpdateFile path then (none, s1)
  else writeFileCommit branch path content msg s1

def createFile (path msg content branch : String) (s : GH) : Option Unit × GH :=
  let s1 := push (.createFileEv path) s
  if s.failCreateFile path then (none, s1)
  else
    match branchTree branch s1 with
    | none => (none, s1)
    | some m =>
      match alookup path m with
      | some _ => (none, s1)
      | none => writeFileCommit branch path content msg s1

def getBranch (name : String) (s : GH) : Option Nat × GH :=
  let s1 := push (.getBranchEv name) s
  if s.failGetBranch name then (none, s1)
  else (alookup name s.refs, s1)

def createRef (name : String) (sha : Nat) (s : GH) : Option Unit × GH :=
  let s1 := push (.createRefEv name sha) s
  if s.failCreateRef name then (none, s1)
  else
    match alookup name s.refs with
    | some _ => (none, s1)
    | none => (some (), { s1 with refs := (name, sha) :: s1.refs })

def deleteRef (name : String) (s : GH) : Option Unit × GH :=
  let s1 := push (.deleteRefEv name) s
  if s.failDeleteRef name then (none, s1)
  else
    match alookup name s.refs with
    | none => (none, s1)
    | some _ => (some (), { s1 with refs := aremove name s1.refs })

def listBranches (s : GH) : Option Unit × GH :=
  let s1 := push .listBranchesEv s
  if s.failListBranches then (none, s1) else (some (), s1)

def createPull (head base : String) (s : GH) : Option Nat × GH :=
  let s1 := push .createPullEv s
  if s.failCreatePull then (none, s1)
  else (some s1.nextId, { s1 with nextId := s1.nextId + 1 })

def isPerFileEvent : Event → Bool
  | .updateFileEv _ => true
  | .createFileEv _ => true
  | _ => false

def isAtomicEvent : Event → Bool
  | .getCommitEv _ => true
  | .createBlobEv _ => true
  | .createTreeEv => true
  | .createCommitEv => true
  | .editRefEv _ => true
  | _ => false

/-! ## Commit Builder (tasks.py, lines 595-667)

`atomicPath` is the `try` block: tip read, one blob per file (appending to
`updated_files` as the source does), tree, commit, ref move.  `failed`
records whether the block raised.  `fallbackFile` is the per-file body of
the `except` fallback, with the source's nested `try` structure: a failure
of `get_contents` or `update_file` falls through to `create_file`, and a
`create_file` failure skips the path. -/

structure BlobRes where
  elems : List (String × Nat)
  updated : List String
  st : GH
  failed : Bool

def blobLoop : List (String × String) → List (String × Nat) → List String → GH → BlobRes
  | [], elems, upd, s => ⟨elems, upd, s, false⟩
  | (p, c) :: rest, elems, upd, s =>
    match createBlob c s with
    | (some sha, s1) =>
      blobLoop rest (elems ++ [(p, sha)]) (upd ++ [p]) s1
    | (none, s1) => ⟨elems, upd, s1, true⟩

structure AtomicRes where
  updated : List String
  st : GH
  failed : Bool

def atomicPath (branch msg : String) (files : List (String × String)) (s : GH) :
    AtomicRes :=
  match getCommit branch s with
  | (none, s1) => ⟨[], s1, true⟩
  | (some tip, s1) =>
    let b := blobLoop files [] [] s1
    if b.failed then ⟨b.updated, b.st, true⟩
    else
      match createTree b.elems tip.2.tree b.st with
      | (none, s3) => ⟨b.updated, s3, true⟩
      | (some newTreeId, s3) =>
        match createCommit msg newTreeId [tip.1] s3 with
        | (none, s4) => ⟨b.updated, s4, true⟩
        | (some newCid, s4) =>
          match editRef branch newCid s4 with
          | (none, s5) => ⟨b.updated, s5, true⟩
          | (some _, s5) => ⟨b.updated, s5, false⟩

def fallbackFile (branch msg p c : String) (s : GH) : Bool × GH :=
  match getContents p branch s with
  | (some _, s1) =>
    match updateFile p msg c branch s1 with
    | (some _, s2) => (true, s2)
    | (none, s2) =>
      match createFile p msg c branch s2 with
      | (some _, s3) => (true, s3)
      | (none, s3) => (false, s3)
  | (none, s1) =>
    match createFile p msg c branch s1 with
    | (some _, s2) => (true, s2)
    | (none, s2) => (false, s2)

def fallbackLoop (branch msg : String) :
    List (String × String) → List String → GH → List String × GH
  | [], upd, s => (upd, s)
  | (p, c) :: rest, upd, s =>
    let r := fallbackFile branch msg p c s
    fallbackLoop branch msg rest (if r.1 then upd ++ [p] else upd) r.2

def commitPhase (branch msg : String) (files : List (String × String)) (s : GH) :
    List String × GH :=
  let a := atomicPath branch msg files s
  if a.failed then fallbackLoop branch msg files a.updated a.st
  else (a.updated, a.st)

/-! ## Patch Splitter (tasks.py lines 545-578, github_integration.py 246-279)

The `while i < len(lines)` scan.  `findHunk` is the inner
`while ... not startswith('@@')` loop; the `fuel` argument of `parseLoop`
bounds iterations (the index strictly increases each pass, so
`lines.length + 1` steps always suffice).  `oracle` stands for the
read-only `repo.get_contents(current_file, ref=branch)` probe, whose
failure is absorbed into an empty original (`except: original_content = ""`). -/

def findHunkFuel : Nat → List String → Nat → Nat
  | 0, _, j => j
  | fuel + 1, lines, j =>
    if h : j < lines.length then
      if pyStartsWith (lines.get ⟨j, h⟩) "@@" then j
      else findHunkFuel fuel lines (j + 1)
    else j

def findHunk (lines : List String) (j : Nat) : Nat :=
  findHunkFuel (lines.length + 1) lines j

def parseLoop (oracle : String → Option String) (lines : List String) :
    Nat → Nat → List (String × String) → List (String × String)
  | 0, _, acc => acc
  | fuel + 1, i, acc =>
    if h : i < lines.length then
      let line := lines.get ⟨i, h⟩
      if pyStartsWith line "--- a/" || pyStartsWith line "--- /dev/null" then
        if h2 : i + 1 < lines.length then
          if pyStartsWith (lines.get ⟨i + 1, h2⟩) "+++ b/" then
            let currentFile := pyDrop (lines.get ⟨i + 1, h2⟩) 6
            let original := (oracle currentFile).getD ""
            let j := findHunk lines (i + 2)
            let acc2 :=
              if j < lines.length then
                aupsert acc currentFile
                  (apply_diff_to_content original (lines.drop j) currentFile)
              else acc
            parseLoop oracle lines fuel (j + 1) acc2
          else parseLoop oracle lines fuel (i + 1) acc
        else parseLoop oracle lines fuel (i + 1) acc
      else parseLoop oracle lines fuel (i + 1) acc
    else acc

def parseFiles (oracle : String → Option String) (lines : List String) :
    List (String × String) :=
  parseLoop oracle lines (lines.length + 1) 0 []

/-! ## Task record and commit message (tasks.py lines 586-593) -/

structure TaskRec where
  status : String
  git_patch : Option String
  target_branch : String
  chat_messages : List (String × String)
  changed_files : List String
  prompt : Option String

def firstUserMessage : List (String × String) → Option String
  | [] => none
  | (role, content) :: rest =>
    if role = "user" then some content else firstUserMessage rest

def commitMessage (task : TaskRec) : String :=
  match firstUserMessage task.chat_messages with
  | some m => "Claude Code: " ++ pyTake m 100
  | none => "Claude Code: " ++ pyTake (task.prompt.getD "Automated changes") 100

/-! ## The two route implementations of `apply_patch_to_github_repo` -/

namespace Tasks

def apply_patch_to_github_repo (branch patch : String) (task : TaskRec) (s : GH) :
    List String × GH :=
  let files := parseFiles (fun p => getContentsPure branch p s) (pySplitLines patch)
  if files.isEmpty then ([], s)
  else commitPhase branch (commitMessage task) files s

end Tasks

namespace GithubIntegration

def apply_patch_to_github_repo (branch patch prompt : String) (s : GH) :
    List String × GH :=
  let files := parseFiles (fun p => getContentsPure branch p s) (pySplitLines patch)
  let msg := "Claude Code: " ++ pyTake prompt 100
  fallbackLoop branch msg files [] s

end GithubIntegration

/-! ## Repository Access Guard (tasks.py lines 289-315)

The branch-permission block of `validate_github_token` (identical in
`github_integration.py`): list branches, then probe branch creation by
creating `test-permissions-<now>` from the default branch tip and deleting
it.  The returned pair is `(read_branches, create_branches)`. -/

def probeBranchPermissions (tNow : Nat) (s : GH) : (Bool × Bool) × GH :=
  match listBranches s with
  | (none, s1) => ((false, false), s1)
  | (some _, s1) =>
    let name := "test-permissions-" ++ toString tNow
    match getBranch s1.defaultBranch s1 with
    | (none, s2) => ((true, false), s2)
    | (some sha, s2) =>
      match createRef name sha s2 with
      | (none, s3) => ((true, false), s3)
      | (some _, s3) =>
        match deleteRef name s3 with
        | (none, s4) => ((true, false), s4)
        | (some _, s4) => ((true, true), s4)

/-! ## The create-pr route (tasks.py lines 350-479)

Modelled from the point where the task has been fetched.  `setupPrBranch`
is the delete-then-create block (lines 407-420): the inner `try` swallows
any failure of the existence check or the deletion, the outer one turns a
`create_git_ref` failure into a 403. -/

inductive PrResult where
  | badRequest : String → PrResult
  | forbidden : String → PrResult
  | serverError : String → PrResult
  | created : String → Nat → Nat → PrResult
deriving DecidableEq

namespace Tasks

def setupPrBranch (prBranch : String) (baseSha : Nat) (s : GH) : Option Unit × GH :=
  let s1 :=
    match getBranch prBranch s with
    | (none, t) => t
    | (some _, t) => (deleteRef prBranch t).2
  match createRef prBranch baseSha s1 with
  | (none, s2) => (none, s2)
  | (some _, s2) => (some (), s2)

def afterBranchSetup (task : TaskRec) (prBranch : String) (s : GH) : PrResult × GH :=
  let patch := task.git_patch.getD ""
  let (files_updated, s1) := apply_patch_to_github_repo prBranch patch task s
  if files_updated.isEmpty then
    (.serverError "Failed to apply patch - no file changes extracted", s1)
  else
    match createPull prBranch task.target_branch s1 with
    | (none, s2) => (.serverError "create_pull raised", s2)
    | (some n, s2) => (.created prBranch files_updated.length n, s2)

def create_pull_request (taskId : Nat) (task : TaskRec) (s : GH) : PrResult × GH :=
  if task.status ≠ "completed" then (.badRequest "Task not completed yet", s)
  else if task.git_patch.getD "" = "" then
    (.badRequest "No patch data available for this task", s)
  else
    let prBranch := "claude-code-" ++ toString taskId
    match getBranch task.target_branch s with
    | (none, s1) => (.serverError "base branch read raised", s1)
    | (some baseSha, s1) =>
      match setupPrBranch prBranch baseSha s1 with
      | (none, s2) => (.forbidden "Failed to create branch", s2)
      | (some _, s2) => afterBranchSetup task prBranch s2

end Tasks

/-! ## Concrete fixtures for counterexamples and witnesses -/

def baseGH : GH :=
  { refs := [], commits := [], trees := [], blobs := [],
    defaultBranch := "main", nextId := 0, log := [],
    failGetCommit := false, failCreateBlob := fun _ => false,
    failCreateTree := false, failCreateCommit := false, failEditRef := false,
    failGetContents := fun _ => false, failUpdateFile := fun _ => false,
    failCreateFile := fun _ => false, failGetBranch := fun _ => false,
    failCreateRef := fun _ => false, failDeleteRef := fun _ => false,
    failListBranches := false, failCreatePull := false }

def patchThreeNewFiles : String :=
  "--- /dev/null\n+++ b/f1\n@@ -0,0 +1 @@\n+a1\n--- /dev/null\n+++ b/f2\n@@ -0,0 +1 @@\n+a2\n--- /dev/null\n+++ b/f3\n@@ -0,0 +1 @@\n+a3"

def taskCompleted : TaskRec :=
  { status := "completed", git_patch := some patchThreeNewFiles,
    target_branch := "main", chat_messages := [("user", "do stuff")],
    changed_files := ["f1", "f2", "f3"], prompt := none }

def ghTreeFails : GH :=
  { baseGH with
    refs := [("claude-code-1", 0)], commits := [(0, ⟨0, [], ""⟩)],
    trees := [(0, [])], nextId := 1,
    failCreateTree := true,
    failCreateFile := fun p => p == "f3" }

def ghPlain : GH :=
  { baseGH with
    refs := [("b", 0)], commits := [(0, ⟨0, [], ""⟩)],
    trees := [(0, [])], nextId := 1 }

def patchOneNewFile : String :=
  "--- /dev/null\n+++ b/f1\n@@ -0,0 +1 @@\n+hi"

def ghDeleteFails : GH :=
  { baseGH with
    refs := [("main", 5)], commits := [(5, ⟨0, [], ""⟩)],
    trees := [(0, [])], nextId := 6,
    failDeleteRef := fun _ => true }

def ghProbeOk : GH :=
  { baseGH with
    refs := [("main", 3)], commits := [(3, ⟨0, [], ""⟩)],
    trees := [(0, [])], nextId := 4 }

def ghAtomicOk : GH :=
  { baseGH with
    refs := [("dev", 0)], commits := [(0, ⟨0, [], "init"⟩)],
    trees := [(0, [("keep.txt", "k")])], nextId := 1 }

def patchTwoFilesNoGitHeader : String :=
  "--- a/f1\n+++ b/f1\n@@ -1,1 +1,1 @@\n+x\n--- a/f2\n+++ b/f2\n@@ -1,1 +1,1 @@\n+y"

def taskNoHunks : TaskRec :=
  { status := "completed", git_patch := some "--- a/f\n+++ b/f\nno hunk marker here",
    target_branch := "main", chat_messages := [], changed_files := [],
    prompt := some "p" }

def taskSmallPatch : TaskRec :=
  { status := "completed", git_patch := some patchOneNewFile,
    target_branch := "main", chat_messages := [("user", "tweak")],
    changed_files := ["f1"], prompt := none }

def ghWithStaleBranch : GH :=
  { baseGH with
    refs := [("main", 7), ("claude-code-1", 3)],
    commits := [(7, ⟨0, [], ""⟩), (3, ⟨0, [], ""⟩)],
    trees := [(0, [])], nextId := 8 }

/-! ## Association-list lemmas -/

theorem alookup_aupsert_self {α β : Type} [DecidableEq α]
    (m : List (α × β)) (k : α) (v : β) :
    alookup k (aupsert m k v) = some v := by
  induction m with
  | nil => simp [aupsert, alookup]
  | cons kv rest ih =>
    obtain ⟨k0, v0⟩ := kv
    by_cases h : k0 = k
    · simp [aupsert, alookup, h]
    · simp [aupsert, alookup, h, ih]

theorem alookup_aupsert_ne {α β : Type} [DecidableEq α]
    (m : List (α × β)) (k q : α) (v : β) (h : q ≠ k) :
    alookup q (aupsert m k v) = alookup q m := by
  induction m with
  | nil =>
    simp only [aupsert, alookup]
    rw [if_neg (fun he => h he.symm)]
  | cons kv rest ih =>
    obtain ⟨k0, v0⟩ := kv
    by_cases h0 : k0 = k
    · subst h0
      simp only [aupsert, if_pos rfl, alookup]
      rw [if_neg (fun he => h he.symm), if_neg (fun he => h he.symm)]
    · simp only [aupsert, if_neg h0, alookup]
      by_cases hq : k0 = q
      · simp [hq]
      · simp [hq, ih]

theorem alookup_aremove_self {α β : Type} [DecidableEq α]
    (m : List (α × β)) (k : α) :
    alookup k (aremove k m) = none := by
  induction m with
  | nil => simp [aremove, alookup]
  | cons kv rest ih =>
    obtain ⟨k0, v0⟩ := kv
    by_cases h : k0 = k
    · simp [aremove, h, ih]
    · simp [aremove, alookup, h, ih]

/-! ## Reconstructor lemmas -/

theorem walkLines_render (ls : List DiffLine)
    (h : ∀ t, DiffLine.added t ∈ ls → pyStartsWith t "++" = false) :
    walkLines (ls.map renderDiffLine) = diffBodies ls := by
  induction ls with
  | nil => rfl
  | cons d rest ih =>
    have hrest : ∀ t, DiffLine.added t ∈ rest → pyStartsWith t "++" = false :=
      fun t ht => h t (List.mem_cons_of_mem _ ht)
    cases d with
    | added t =>
      have ht : pyStartsWith t "++" = false := h t (List.mem_cons_self _ _)
      have e1 : pyStartsWith ("+" ++ t) "+++" = pyStartsWith t "++" := by
        simp [pyStartsWith, List.isPrefixOf]
      have e2 : pyStartsWith ("+" ++ t) "---" = false := by
        simp [pyStartsWith, List.isPrefixOf]
      have e3 : pyStartsWith ("+" ++ t) "+" = true := by
        simp [pyStartsWith, List.isPrefixOf]
      simp only [List.map_cons, walkLines, diffBodies, renderDiffLine, e1, e2, e3,
        ht, Bool.or_false, Bool.false_or]
      simp [ih hrest]
      rfl
    | context t =>
      have e1 : pyStartsWith (" " ++ t) "+++" = false := by
        simp [pyStartsWith, List.isPrefixOf]
      have e2 : pyStartsWith (" " ++ t) "---" = false := by
        simp [pyStartsWith, List.isPrefixOf]
      have e3 : pyStartsWith (" " ++ t) "+" = false := by
        simp [pyStartsWith, List.isPrefixOf]
      have e4 : pyStartsWith (" " ++ t) " " = true := by
        simp [pyStartsWith, List.isPrefixOf]
      simp only [List.map_cons, walkLines, diffBodies, renderDiffLine, e1, e2, e3, e4,
        Bool.or_false, Bool.false_or]
      simp [ih hrest]
      rfl
    | removed t =>
      have e1 : pyStartsWith ("-" ++ t) "+++" = false := by
        simp [pyStartsWith, List.isPrefixOf]
      have e2 : pyStartsWith ("-" ++ t) "---" = pyStartsWith t "--" := by
        simp [pyStartsWith, List.isPrefixOf]
      have e3 : pyStartsWith ("-" ++ t) "+" = false := by
        simp [pyStartsWith, List.isPrefixOf]
      have e4 : pyStartsWith ("-" ++ t) " " = false := by
        simp [pyStartsWith, List.isPrefixOf]
      have e5 : pyStartsWith ("-" ++ t) "-" = true := by
        simp [pyStartsWith, List.isPrefixOf]
      simp only [List.map_cons, walkLines, diffBodies, renderDiffLine, e1, e2, e3, e4, e5,
        Bool.or_false, Bool.false_or]
      cases hx : pyStartsWith t "--" with
      | true => simp [ih hrest]
      | false => simp [ih hrest]

theorem noDoublePlusAdded_spec (ls : List DiffLine) (h : noDoublePlusAdded ls = true) :
    ∀ t, DiffLine.added t ∈ ls → pyStartsWith t "++" = false := by
  induction ls with
  | nil => intro t ht; simp at ht
  | cons d rest ih =>
    intro t ht
    cases d with
    | added u =>
      simp only [noDoublePlusAdded, Bool.and_eq_true, Bool.not_eq_true'] at h
      rcases List.mem_cons.mp ht with he | hm
      · injection he with he1
        subst he1
        exact h.1
      · exact ih h.2 t hm
    | removed u =>
      simp only [noDoublePlusAdded] at h
      rcases List.mem_cons.mp ht with he | hm
      · simp at he
      · exact ih h t hm
    | context u =>
      simp only [noDoublePlusAdded] at h
      rcases List.mem_cons.mp ht with he | hm
      · simp at he
      · exact ih h t hm

/-! ## Claim C5 -/

/-- C5: the claim that scanning stops at a line beginning with "--- a/" is
false of the code.  On the hunk body below, the "+y" line sitting after the
"--- a/other" marker still contributes to the output, which is "x\ny" and not
the "x" the claim predicts: the "--- a/" arm of the break test is unreachable,
shadowed by the earlier metadata-skip branch that matches any "---" prefix. -/
theorem c5_walk_continues_past_file_header :
    apply_diff_to_content "" ["@@ -0,0 +1,1 @@", "+x", "--- a/other", "+y"] "f" = "x\ny"
      ∧ ("x\ny" : String) ≠ "x" := by
  constructor
  · decide
  · decide

/-! ## Claim C7 -/

/-- C7 counterexample: an Added line whose body begins with "++" renders as a
line beginning with "+++", which the walk discards as diff metadata, so the
output drops that body and is not the newline-join of all Added bodies. -/
theorem c7_counterexample :
    apply_diff_to_content "x"
        ("@@ -0,0 +1,1 @@" :: [DiffLine.added "a", DiffLine.added "++b"].map renderDiffLine)
        "f"
      ≠ joinNl (diffBodies [DiffLine.added "a", DiffLine.added "++b"]) := by
  decide

/-- C7 amended: for a hunk body of Added, Removed and Context lines following
an "@@" header, the reconstructor returns the newline-joined bodies of the
Context and Added lines in order, omitting Removed bodies, provided no Added
body begins with "++" (such lines render as "+++..." and are discarded as
metadata) and at least one line is emitted (otherwise the original-content
fallback fires). -/
theorem c7_reconstruct_joins_added_context (orig hdr fname : String)
    (ls : List DiffLine)
    (hhdr : pyStartsWith hdr "@@" = true)
    (hplus : noDoublePlusAdded ls = true)
    (hne : diffBodies ls ≠ []) :
    apply_diff_to_content orig (hdr :: ls.map renderDiffLine) fname
      = joinNl (diffBodies ls) := by
  have h1 : findDiffStart (hdr :: ls.map renderDiffLine) = 1 := by
    simp [findDiffStart, findDiffStartAux, hhdr]
  simp only [apply_diff_to_content, h1, List.drop_succ_cons, List.drop_zero]
  rw [walkLines_render ls (noDoublePlusAdded_spec ls hplus)]
  cases hb : diffBodies ls with
  | nil => exact absurd hb hne
  | cons a as => simp [List.isEmpty]

/-- C7 witness: the spec's concrete example, via the amended theorem. -/
theorem c7_witness :
    apply_diff_to_content ""
        ("@@ -0,0 +1,2 @@" :: [DiffLine.added "a", DiffLine.added "b"].map renderDiffLine)
        "f"
      = "a\nb" := by
  rw [c7_reconstruct_joins_added_context "" "@@ -0,0 +1,2 @@" "f"
    [DiffLine.added "a", DiffLine.added "b"] (by decide) (by decide) (by decide)]
  decide

/-! ## Claim C8 -/

/-- C8: if the walk over the hunk body emits zero lines, the original content
is returned unchanged (the source's explicit no-op fallback). -/
theorem c8_empty_walk_returns_original (orig : String) (diffLines : List String)
    (fname : String)
    (h : walkLines (diffLines.drop (findDiffStart diffLines)) = []) :
    apply_diff_to_content orig diffLines fname = orig := by
  simp only [apply_diff_to_content, h]
  rfl

/-- C8 witness: the spec's concrete example, an empty hunk body. -/
theorem c8_witness : apply_diff_to_content "x\ny" [] "f" = "x\ny" :=
  c8_empty_walk_returns_original "x\ny" [] "f" (by rfl)

/-! ## Patch-splitter lemmas -/

theorem findHunkFuel_ge_of_no_hit (lines : List String)
    (hno : ∀ l ∈ lines, pyStartsWith l "@@" = false) :
    ∀ fuel j, lines.length ≤ j + fuel → lines.length ≤ findHunkFuel fuel lines j := by
  intro fuel
  induction fuel with
  | zero =>
    intro j hj
    simp only [findHunkFuel]
    omega
  | succ n ih =>
    intro j hj
    simp only [findHunkFuel]
    split
    case isTrue h =>
      have hfalse : pyStartsWith lines[j] "@@" = false :=
        hno _ (List.getElem_mem h)
      rw [if_neg (by simp [hfalse])]
      exact ih (j + 1) (by omega)
    case isFalse h => omega

theorem findHunk_ge_of_no_hit (lines : List String)
    (hno : ∀ l ∈ lines, pyStartsWith l "@@" = false) (j : Nat) :
    lines.length ≤ findHunk lines j :=
  findHunkFuel_ge_of_no_hit lines hno (lines.length + 1) j (by omega)

theorem parseLoop_no_hunk (oracle : String → Option String) (lines : List String)
    (hno : ∀ l ∈ lines, pyStartsWith l "@@" = false) :
    ∀ fuel i acc, parseLoop oracle lines fuel i acc = acc := by
  intro fuel
  induction fuel with
  | zero => intro i acc; rfl
  | succ fuel ih =>
    intro i acc
    simp only [parseLoop]
    split
    case isFalse h => rfl
    case isTrue h =>
      have hge : lines.length ≤ findHunk lines (i + 2) :=
        findHunk_ge_of_no_hit lines hno (i + 2)
      have hnlt : ¬ findHunk lines (i + 2) < lines.length := by omega
      simp only [if_neg hnlt]
      split
      any_goals exact ih _ _
      split
      any_goals exact ih _ _
      split
      any_goals exact ih _ _

/-! ## Claim C6 -/

/-- C6: on a plain two-file unified diff with no "diff --git" separators, the
splitter does yield two entries with the stripped "+++ b/" paths, but the hunk
bodies passed to the reconstructor overlap: the first file's slice runs to the
end of the patch, and because the walk does not stop at "--- a/f2" (see C5)
the second file's "+y" body lands in f1's content ("x\ny") as well as in f2's
("y").  This refutes the claimed non-overlap of the reconstructions. -/
theorem c6_two_file_split_overlaps :
    parseFiles (fun _ => none) (pySplitLines patchTwoFilesNoGitHeader)
      = [("f1", "x\ny"), ("f2", "y")] := by
  decide

/-! ## Claim C9 -/

/-- C9: if no hunk-start marker "@@" occurs in the stored patch (in particular
after any file-header pair), the splitter produces zero file changes, and the
create-pr pipeline then fails with the 500 server error rather than
succeeding. -/
theorem c9_no_hunk_marker_server_error (task : TaskRec) (prB : String) (s : GH)
    (hno : ∀ l ∈ pySplitLines (task.git_patch.getD ""), pyStartsWith l "@@" = false) :
    parseFiles (fun p => getContentsPure prB p s)
        (pySplitLines (task.git_patch.getD "")) = []
      ∧ (Tasks.afterBranchSetup task prB s).1
          = PrResult.serverError "Failed to apply patch - no file changes extracted" := by
  have hp : parseFiles (fun p => getContentsPure prB p s)
      (pySplitLines (task.git_patch.getD "")) = [] :=
    parseLoop_no_hunk _ _ hno _ _ _
  refine ⟨hp, ?_⟩
  simp [Tasks.afterBranchSetup, Tasks.apply_patch_to_github_repo, hp]

/-- C9 witness: a patch with a file-header pair but no "@@" line. -/
theorem c9_witness :
    parseFiles (fun p => getContentsPure "claude-code-9" p baseGH)
        (pySplitLines (taskNoHunks.git_patch.getD "")) = []
      ∧ (Tasks.afterBranchSetup taskNoHunks "claude-code-9" baseGH).1
          = PrResult.serverError "Failed to apply patch - no file changes extracted" :=
  c9_no_hunk_marker_server_error taskNoHunks "claude-code-9" baseGH (by decide)

/-! ## Claim C1 -/

/-- C1: three new files, atomic path failing at `create_git_tree`, fallback
writes succeeding for f1 and f2 and raising for f3.  The source appends to
`updated_files` while preparing blobs inside the atomic `try` and never resets
it when entering the fallback, so the returned list is
["f1","f2","f3","f1","f2"], of length 5, not the claimed list of length 2
holding exactly the succeeded paths.  (No exception escapes: the function
still returns normally.) -/
theorem c1_fallback_overcounts_updated_paths :
    (Tasks.apply_patch_to_github_repo "claude-code-1" patchThreeNewFiles
        taskCompleted ghTreeFails).1
      = ["f1", "f2", "f3", "f1", "f2"]
      ∧ (Tasks.apply_patch_to_github_repo "claude-code-1" patchThreeNewFiles
          taskCompleted ghTreeFails).1.length = 5 := by
  constructor
  · decide
  · decide

/-! ## Claim C2 -/

/-- C2 counterexample: the probe branch is created, `delete()` raises, the
failure is caught and only flips the flag — but the probe branch
"test-permissions-42" is still present in the refs after the probe
completes, refuting the claimed invariant. -/
theorem c2_counterexample :
    (probeBranchPermissions 42 ghDeleteFails).1.2 = false
      ∧ alookup "test-permissions-42"
          (probeBranchPermissions 42 ghDeleteFails).2.refs = some 5 := by
  constructor
  · decide
  · decide

/-- C2 amended: the probe branch never remains when the probe-branch name is
not already a ref (the timestamped name) and the deletion call itself does not
raise; when creation succeeds but deletion raises, the failure is caught and
only clears the flag, and the branch remains (see the counterexample). -/
theorem c2_probe_no_residue (tNow : Nat) (s : GH)
    (habs : alookup ("test-permissions-" ++ toString tNow) s.refs = none)
    (hdel : s.failDeleteRef ("test-permissions-" ++ toString tNow) = false) :
    alookup ("test-permissions-" ++ toString tNow)
      (probeBranchPermissions tNow s).2.refs = none := by
  simp only [probeBranchPermissions, listBranches, getBranch, createRef, deleteRef, push]
  cases hf1 : s.failListBranches with
  | true => simp [hf1, habs]
  | false =>
    simp only [hf1, Bool.false_eq_true, if_false]
    cases hf2 : s.failGetBranch s.defaultBranch with
    | true => simp [hf2, habs]
    | false =>
      simp only [hf2, Bool.false_eq_true, if_false]
      cases halb : alookup s.defaultBranch s.refs with
      | none => simp [halb, habs]
      | some sha =>
        simp only [halb]
        cases hf3 : s.failCreateRef ("test-permissions-" ++ toString tNow) with
        | true => simp [hf3, habs]
        | false =>
          simp only [hf3, Bool.false_eq_true, if_false, habs]
          simp only [hdel, Bool.false_eq_true, if_false]
          simp [alookup, alookup_aremove_self]

/-- C2 witness: a healthy repository; the probe leaves no branch behind. -/
theorem c2_witness :
    alookup ("test-permissions-" ++ toString 7)
      (probeBranchPermissions 7 ghProbeOk).2.refs = none :=
  c2_probe_no_residue 7 ghProbeOk (by decide) (by decide)

/-! ## Commit-builder log lemmas (for C3) -/

theorem writeFileCommit_log (branch path content msg : String) (s : GH) :
    ((writeFileCommit branch path content msg s).2).log = s.log := by
  unfold writeFileCommit
  split
  · rfl
  · split
    · rfl
    · rfl

theorem updateFile_log (path msg content branch : String) (s : GH) :
    ((updateFile path msg content branch s).2).log
      = Event.updateFileEv path :: s.log := by
  simp only [updateFile]
  split
  · rfl
  · rw [writeFileCommit_log]
    rfl

theorem createFile_log (path msg content branch : String) (s : GH) :
    ((createFile path msg content branch s).2).log
      = Event.createFileEv path :: s.log := by
  simp only [createFile]
  split
  · rfl
  · split
    · rfl
    · split
      · rfl
      · rw [writeFileCommit_log]
        rfl

theorem createBlob_countP (c : String) (s : GH) :
    ((createBlob c s).2).log.countP isPerFileEvent
      = s.log.countP isPerFileEvent := by
  simp only [createBlob, push]
  split <;> simp [List.countP_cons, isPerFileEvent]

theorem blobLoop_countP (files : List (String × String)) :
    ∀ (elems : List (String × Nat)) (upd : List String) (s : GH),
      ((blobLoop files elems upd s).st.log.countP isPerFileEvent)
        = s.log.countP isPerFileEvent := by
  induction files with
  | nil => intro elems upd s; rfl
  | cons pc rest ih =>
    intro elems upd s
    obtain ⟨p, c⟩ := pc
    rcases h : createBlob c s with ⟨r, s1⟩
    have hcnt : s1.log.countP isPerFileEvent = s.log.countP isPerFileEvent := by
      have h2 := createBlob_countP c s
      rw [h] at h2
      exact h2
    cases r with
    | some sha =>
      simp only [blobLoop, h]
      exact (ih _ _ _).trans hcnt
    | none =>
      simp only [blobLoop, h]
      exact hcnt

theorem atomicPath_countP (branch msg : String) (files : List (String × String)) (s : GH) :
    (atomicPath branch msg files s).st.log.countP isPerFileEvent
      = s.log.countP isPerFileEvent := by
  have hgc : ∀ r s1, getCommit branch s = (r, s1) →
      s1.log.countP isPerFileEvent = s.log.countP isPerFileEvent := by
    intro r s1 h
    have h0 : ((getCommit branch s).2).log = Event.getCommitEv branch :: s.log := by
      simp only [getCommit, push]
      split
      · rfl
      · split
        · rfl
        · split <;> rfl
    rw [h] at h0
    have hlog : s1.log = Event.getCommitEv branch :: s.log := h0
    simp [hlog, List.countP_cons, isPerFileEvent]
  rcases h1 : getCommit branch s with ⟨r1, s1⟩
  have hc1 := hgc r1 s1 h1
  cases r1 with
  | none => simp only [atomicPath, h1]; exact hc1
  | some tip =>
    simp only [atomicPath, h1]
    have hb := blobLoop_countP files [] [] s1
    split
    · exact hb.trans hc1
    · rcases h3 : createTree (blobLoop files [] [] s1).elems tip.2.tree (blobLoop files [] [] s1).st
        with ⟨r3, s3⟩
      have hc3 : s3.log.countP isPerFileEvent
          = (blobLoop files [] [] s1).st.log.countP isPerFileEvent := by
        have h0 : ((createTree (blobLoop files [] [] s1).elems tip.2.tree (blobLoop files [] [] s1).st).2).log
            = Event.createTreeEv :: (blobLoop files [] [] s1).st.log := by
          simp only [createTree, push]
          split <;> rfl
        rw [h3] at h0
        have hlog : s3.log = Event.createTreeEv :: (blobLoop files [] [] s1).st.log := h0
        simp [hlog, List.countP_cons, isPerFileEvent]
      cases r3 with
      | none => simp only [h3]; exact hc3.trans (hb.trans hc1)
      | some newTreeId =>
        simp only [h3]
        rcases h4 : createCommit msg newTreeId [tip.1] s3 with ⟨r4, s4⟩
        have hc4 : s4.log.countP isPerFileEvent = s3.log.countP isPerFileEvent := by
          have h0 : ((createCommit msg newTreeId [tip.1] s3).2).log
              = Event.createCommitEv :: s3.log := by
            simp only [createCommit, push]
            split <;> rfl
          rw [h4] at h0
          have hlog : s4.log = Event.createCommitEv :: s3.log := h0
          simp [hlog, List.countP_cons, isPerFileEvent]
        cases r4 with
        | none => simp only [h4]; exact hc4.trans (hc3.trans (hb.trans hc1))
        | some newCid =>
          simp only [h4]
          rcases h5 : editRef branch newCid s4 with ⟨r5, s5⟩
          have hc5 : s5.log.countP isPerFileEvent = s4.log.countP isPerFileEvent := by
            have h0 : ((editRef branch newCid s4).2).log = Event.editRefEv branch :: s4.log := by
              simp only [editRef, push]
              split
              · rfl
              · split <;> rfl
            rw [h5] at h0
            have hlog : s5.log = Event.editRefEv branch :: s4.log := h0
            simp [hlog, List.countP_cons, isPerFileEvent]
          cases r5 with
          | none => simp only [h5]; exact hc5.trans (hc4.trans (hc3.trans (hb.trans hc1)))
          | some _ => simp only [h5]; exact hc5.trans (hc4.trans (hc3.trans (hb.trans hc1)))

theorem fallbackFile_log_mono (branch msg p c : String) (s : GH) (e : Event)
    (h : e ∈ s.log) : e ∈ ((fallbackFile branch msg p c s).2).log := by
  simp only [fallbackFile, getContents]
  cases hgp : getContentsPure branch p s with
  | some v =>
    rcases hu : updateFile p msg c branch (push (Event.getContentsEv p) s) with ⟨ru, s2⟩
    have hul : s2.log = Event.updateFileEv p :: Event.getContentsEv p :: s.log := by
      have h0 := updateFile_log p msg c branch (push (Event.getContentsEv p) s)
      rw [hu] at h0
      exact h0
    cases ru with
    | some _ => simp [hu, hul, h]
    | none =>
      rcases hc : createFile p msg c branch s2 with ⟨rc, s3⟩
      have hcl : s3.log = Event.createFileEv p :: s2.log := by
        have h0 := createFile_log p msg c branch s2
        rw [hc] at h0
        exact h0
      cases rc with
      | some _ => simp [hu, hc, hcl, hul, h]
      | none => simp [hu, hc, hcl, hul, h]
  | none =>
    rcases hc : createFile p msg c branch (push (Event.getContentsEv p) s) with ⟨rc, s2⟩
    have hcl : s2.log = Event.createFileEv p :: Event.getContentsEv p :: s.log := by
      have h0 := createFile_log p msg c branch (push (Event.getContentsEv p) s)
      rw [hc] at h0
      exact h0
    cases rc with
    | some _ => simp [hc, hcl, h]
    | none => simp [hc, hcl, h]

theorem fallbackLoop_log_mono (branch msg : String) (files : List (String × String)) :
    ∀ (upd : List String) (s : GH) (e : Event), e ∈ s.log →
      e ∈ ((fallbackLoop branch msg files upd s).2).log := by
  induction files with
  | nil => intro upd s e h; exact h
  | cons pc rest ih =>
    intro upd s e h
    obtain ⟨p, c⟩ := pc
    simp only [fallbackLoop]
    exact ih _ _ _ (fallbackFile_log_mono branch msg p c s e h)

theorem blobLoop_log_mono (files : List (String × String)) :
    ∀ (elems : List (String × Nat)) (upd : List String) (s : GH) (e : Event),
      e ∈ s.log → e ∈ (blobLoop files elems upd s).st.log := by
  induction files with
  | nil => intro elems upd s e h; exact h
  | cons pc rest ih =>
    intro elems upd s e h
    obtain ⟨p, c⟩ := pc
    rcases hb : createBlob c s with ⟨r, s1⟩
    have hbl : s1.log = Event.createBlobEv c :: s.log := by
      have h0 : ((createBlob c s).2).log = Event.createBlobEv c :: s.log := by
        simp only [createBlob, push]
        split <;> rfl
      rw [hb] at h0
      exact h0
    cases r with
    | some sha =>
      simp only [blobLoop, hb]
      exact ih _ _ _ _ (by simp [hbl, h])
    | none =>
      simp only [blobLoop, hb]
      simp [hbl, h]

theorem atomicPath_mem_getCommit (branch msg : String)
    (files : List (String × String)) (s : GH) :
    Event.getCommitEv branch ∈ (atomicPath branch msg files s).st.log := by
  rcases h1 : getCommit branch s with ⟨r1, s1⟩
  have hlog : s1.log = Event.getCommitEv branch :: s.log := by
    have h0 : ((getCommit branch s).2).log = Event.getCommitEv branch :: s.log := by
      simp only [getCommit, push]
      split
      · rfl
      · split
        · rfl
        · split <;> rfl
    rw [h1] at h0
    exact h0
  have hmem1 : Event.getCommitEv branch ∈ s1.log := by simp [hlog]
  cases r1 with
  | none => simp only [atomicPath, h1]; exact hmem1
  | some tip =>
    simp only [atomicPath, h1]
    have hmemb : Event.getCommitEv branch ∈ (blobLoop files [] [] s1).st.log :=
      blobLoop_log_mono files [] [] s1 _ hmem1
    split
    · exact hmemb
    · rcases h3 : createTree (blobLoop files [] [] s1).elems tip.2.tree
        (blobLoop files [] [] s1).st with ⟨r3, s3⟩
      have hl3 : s3.log = Event.createTreeEv :: (blobLoop files [] [] s1).st.log := by
        have h0 : ((createTree (blobLoop files [] [] s1).elems tip.2.tree
            (blobLoop files [] [] s1).st).2).log
            = Event.createTreeEv :: (blobLoop files [] [] s1).st.log := by
          simp only [createTree, push]
          split <;> rfl
        rw [h3] at h0
        exact h0
      have hm3 : Event.getCommitEv branch ∈ s3.log := by simp [hl3, hmemb]
      cases r3 with
      | none => simp only [h3]; exact hm3
      | some newTreeId =>
        simp only [h3]
        rcases h4 : createCommit msg newTreeId [tip.1] s3 with ⟨r4, s4⟩
        have hl4 : s4.log = Event.createCommitEv :: s3.log := by
          have h0 : ((createCommit msg newTreeId [tip.1] s3).2).log
              = Event.createCommitEv :: s3.log := by
            simp only [createCommit, push]
            split <;> rfl
          rw [h4] at h0
          exact h0
        have hm4 : Event.getCommitEv branch ∈ s4.log := by simp [hl4, hm3]
        cases r4 with
        | none => simp only [h4]; exact hm4
        | some newCid =>
          simp only [h4]
          rcases h5 : editRef branch newCid s4 with ⟨r5, s5⟩
          have hl5 : s5.log = Event.editRefEv branch :: s4.log := by
            have h0 : ((editRef branch newCid s4).2).log
                = Event.editRefEv branch :: s4.log := by
              simp only [editRef, push]
              split
              · rfl
              · split <;> rfl
            rw [h5] at h0
            exact h0
          have hm5 : Event.getCommitEv branch ∈ s5.log := by simp [hl5, hm4]
          cases r5 with
          | none => simp only [h5]; exact hm5
          | some _ => simp only [h5]; exact hm5

/-! ## Claim C3 -/

/-- C3 amended, tasks-route part: whenever the tasks-route
`apply_patch_to_github_repo` issues any per-file create-or-update call
(the per-file event count of the log grew), the atomic sequence was attempted
first (a tip-read call is in the log) and some step of it raised
(`atomicPath ... .failed = true`).  The github_integration route has no atomic
path at all; see the counterexample. -/
theorem c3_tasks_perfile_only_after_atomic_failure (branch patch : String)
    (task : TaskRec) (s : GH)
    (hcnt : s.log.countP isPerFileEvent
        < ((Tasks.apply_patch_to_github_repo branch patch task s).2).log.countP
            isPerFileEvent) :
    (atomicPath branch (commitMessage task)
        (parseFiles (fun p => getContentsPure branch p s) (pySplitLines patch))
        s).failed = true
      ∧ Event.getCommitEv branch
          ∈ ((Tasks.apply_patch_to_github_repo branch patch task s).2).log := by
  cases hE : (parseFiles (fun p => getContentsPure branch p s)
      (pySplitLines patch)).isEmpty with
  | true =>
    simp [Tasks.apply_patch_to_github_repo, hE] at hcnt
  | false =>
    cases hF : (atomicPath branch (commitMessage task)
        (parseFiles (fun p => getContentsPure branch p s) (pySplitLines patch))
        s).failed with
    | false =>
      exfalso
      have heq : (Tasks.apply_patch_to_github_repo branch patch task s).2
          = (atomicPath branch (commitMessage task)
              (parseFiles (fun p => getContentsPure branch p s) (pySplitLines patch))
              s).st := by
        simp [Tasks.apply_patch_to_github_repo, hE, commitPhase, hF]
      rw [heq, atomicPath_countP] at hcnt
      omega
    | true =>
      refine ⟨rfl, ?_⟩
      have h1 := atomicPath_mem_getCommit branch (commitMessage task)
        (parseFiles (fun p => getContentsPure branch p s) (pySplitLines patch)) s
      have heq : (Tasks.apply_patch_to_github_repo branch patch task s).2
          = (fallbackLoop branch (commitMessage task)
              (parseFiles (fun p => getContentsPure branch p s) (pySplitLines patch))
              (atomicPath branch (commitMessage task)
                (parseFiles (fun p => getContentsPure branch p s) (pySplitLines patch))
                s).updated
              (atomicPath branch (commitMessage task)
                (parseFiles (fun p => getContentsPure branch p s) (pySplitLines patch))
                s).st).2 := by
        simp [Tasks.apply_patch_to_github_repo, hE, commitPhase, hF]
      rw [heq]
      exact fallbackLoop_log_mono _ _ _ _ _ _ h1

/-- C3 counterexample: the github_integration route implementation issues
per-file create-or-update calls although no atomic-sequence call was ever
made (so none raised), refuting the claim for that route. -/
theorem c3_counterexample :
    ((GithubIntegration.apply_patch_to_github_repo "b" patchOneNewFile
        "make it" ghPlain).2.log.any isPerFileEvent) = true
      ∧ ((GithubIntegration.apply_patch_to_github_repo "b" patchOneNewFile
          "make it" ghPlain).2.log.all (fun e => !isAtomicEvent e)) = true := by
  constructor
  · decide
  · decide

/-- C3 witness: the tree-failure scenario exercises the amended theorem. -/
theorem c3_witness :
    (atomicPath "claude-code-1" (commitMessage taskCompleted)
        (parseFiles (fun p => getContentsPure "claude-code-1" p ghTreeFails)
          (pySplitLines patchThreeNewFiles)) ghTreeFails).failed = true
      ∧ Event.getCommitEv "claude-code-1"
          ∈ ((Tasks.apply_patch_to_github_repo "claude-code-1" patchThreeNewFiles
              taskCompleted ghTreeFails).2).log :=
  c3_tasks_perfile_only_after_atomic_failure "claude-code-1" patchThreeNewFiles
    taskCompleted ghTreeFails (by decide)

/-! ## Claim C4 -/

/-- C4: when every step of the atomic path succeeds on a 3-file commit plan
(tip read resolves, all three blob creations, the tree, the commit and the
ref move go through), exactly one new commit is prepended, its tree is the
base tree overlaid with the three paths mapped to their new contents
(distinct paths each resolve to their own content, unlisted paths are
unchanged), the tip commit is its sole parent, and the branch ref points to
the new commit. -/
theorem c4_atomic_commit_success (s : GH) (branch msg : String)
    (p1 p2 p3 c1 c2 c3 : String) (tip : Nat) (tc : Commit)
    (baseMap : List (String × String))
    (h1 : s.failGetCommit = false)
    (h2 : alookup branch s.refs = some tip)
    (h3 : alookup tip s.commits = some tc)
    (h4 : alookup tc.tree s.trees = some baseMap)
    (h5 : s.failCreateBlob c1 = false)
    (h6 : s.failCreateBlob c2 = false)
    (h7 : s.failCreateBlob c3 = false)
    (h8 : s.failCreateTree = false)
    (h9 : s.failCreateCommit = false)
    (h10 : s.failEditRef = false)
    (hp12 : p1 ≠ p2) (hp13 : p1 ≠ p3) (hp23 : p2 ≠ p3) :
    (atomicPath branch msg [(p1, c1), (p2, c2), (p3, c3)] s).failed = false
      ∧ (atomicPath branch msg [(p1, c1), (p2, c2), (p3, c3)] s).updated = [p1, p2, p3]
      ∧ (atomicPath branch msg [(p1, c1), (p2, c2), (p3, c3)] s).st.commits
          = (s.nextId + 4, ⟨s.nextId + 3, [tip], msg⟩) :: s.commits
      ∧ alookup branch (atomicPath branch msg [(p1, c1), (p2, c2), (p3, c3)] s).st.refs
          = some (s.nextId + 4)
      ∧ alookup (s.nextId + 3)
            (atomicPath branch msg [(p1, c1), (p2, c2), (p3, c3)] s).st.trees
          = some (aupsert (aupsert (aupsert baseMap p1 c1) p2 c2) p3 c3)
      ∧ alookup p1 (aupsert (aupsert (aupsert baseMap p1 c1) p2 c2) p3 c3) = some c1
      ∧ alookup p2 (aupsert (aupsert (aupsert baseMap p1 c1) p2 c2) p3 c3) = some c2
      ∧ alookup p3 (aupsert (aupsert (aupsert baseMap p1 c1) p2 c2) p3 c3) = some c3
      ∧ ∀ q, q ≠ p1 → q ≠ p2 → q ≠ p3 →
          alookup q (aupsert (aupsert (aupsert baseMap p1 c1) p2 c2) p3 c3)
            = alookup q baseMap := by
  have hb1 : alookup s.nextId
      ((s.nextId + 1 + 1, c3) :: (s.nextId + 1, c2) :: (s.nextId, c1) :: s.blobs)
      = some c1 := by
    simp only [alookup]
    rw [if_neg (by omega), if_neg (by omega)]
    simp
  have hb2 : alookup (s.nextId + 1)
      ((s.nextId + 1 + 1, c3) :: (s.nextId + 1, c2) :: (s.nextId, c1) :: s.blobs)
      = some c2 := by
    simp only [alookup]
    rw [if_neg (by omega)]
    simp
  have hb3 : alookup (s.nextId + 1 + 1)
      ((s.nextId + 1 + 1, c3) :: (s.nextId + 1, c2) :: (s.nextId, c1) :: s.blobs)
      = some c3 := by
    simp [alookup]
  have hn3 : s.nextId + 1 + 1 + 1 = s.nextId + 3 := by omega
  have hn4 : s.nextId + 1 + 1 + 1 + 1 = s.nextId + 4 := by omega
  refine ⟨?_, ?_, ?_, ?_, ?_, ?_, ?_, ?_, ?_⟩
  · simp only [atomicPath, getCommit, createBlob, createTree, createCommit, editRef,
      blobLoop, push, h1, h2, h3, h4, h5, h6, h7, h8, h9, h10,
      Bool.false_eq_true, if_false, List.foldl]
  · simp only [atomicPath, getCommit, createBlob, createTree, createCommit, editRef,
      blobLoop, push, h1, h2, h3, h4, h5, h6, h7, h8, h9, h10,
      Bool.false_eq_true, if_false, List.foldl]
    simp
  · simp only [atomicPath, getCommit, createBlob, createTree, createCommit, editRef,
      blobLoop, push, h1, h2, h3, h4, h5, h6, h7, h8, h9, h10,
      Bool.false_eq_true, if_false, List.foldl]
  · simp only [atomicPath, getCommit, createBlob, createTree, createCommit, editRef,
      blobLoop, push, h1, h2, h3, h4, h5, h6, h7, h8, h9, h10,
      Bool.false_eq_true, if_false, List.foldl]
    simp [hn4, alookup]
  · simp only [atomicPath, getCommit, createBlob, createTree, createCommit, editRef,
      blobLoop, push, h1, h2, h3, h4, h5, h6, h7, h8, h9, h10,
      Bool.false_eq_true, if_false, List.foldl]
    simp only [hb1, hb2, hb3, Option.getD_some]
    simp [hn3, alookup]
  · rw [alookup_aupsert_ne _ _ _ _ hp13, alookup_aupsert_ne _ _ _ _ hp12,
      alookup_aupsert_self]
  · rw [alookup_aupsert_ne _ _ _ _ hp23, alookup_aupsert_self]
  · rw [alookup_aupsert_self]
  · intro q hq1 hq2 hq3
    rw [alookup_aupsert_ne _ _ _ _ hq3, alookup_aupsert_ne _ _ _ _ hq2,
      alookup_aupsert_ne _ _ _ _ hq1]

/-- C4 witness: a concrete repository with one prior file; the three-file
plan lands as one commit with id 5 over tree 4, parent 0, and "keep.txt"
stays untouched. -/
theorem c4_witness :
    (atomicPath "dev" "m" [("a.txt", "A"), ("b.txt", "B"), ("c.txt", "C")]
        ghAtomicOk).failed = false
      ∧ (atomicPath "dev" "m" [("a.txt", "A"), ("b.txt", "B"), ("c.txt", "C")]
          ghAtomicOk).updated = ["a.txt", "b.txt", "c.txt"]
      ∧ (atomicPath "dev" "m" [("a.txt", "A"), ("b.txt", "B"), ("c.txt", "C")]
          ghAtomicOk).st.commits = (5, ⟨4, [0], "m"⟩) :: ghAtomicOk.commits
      ∧ alookup "dev" (atomicPath "dev" "m"
          [("a.txt", "A"), ("b.txt", "B"), ("c.txt", "C")] ghAtomicOk).st.refs = some 5
      ∧ alookup 4 (atomicPath "dev" "m"
            [("a.txt", "A"), ("b.txt", "B"), ("c.txt", "C")] ghAtomicOk).st.trees
          = some (aupsert (aupsert (aupsert [("keep.txt", "k")] "a.txt" "A")
              "b.txt" "B") "c.txt" "C")
      ∧ alookup "keep.txt"
            (aupsert (aupsert (aupsert [("keep.txt", "k")] "a.txt" "A")
              "b.txt" "B") "c.txt" "C")
          = alookup "keep.txt" [("keep.txt", "k")] := by
  have h := c4_atomic_commit_success ghAtomicOk "dev" "m" "a.txt" "b.txt" "c.txt"
    "A" "B" "C" 0 ⟨0, [], "init"⟩ [("keep.txt", "k")]
    (by decide) (by decide) (by decide) (by decide) (by decide) (by decide)
    (by decide) (by decide) (by decide) (by decide) (by decide) (by decide) (by decide)
  exact ⟨h.1, h.2.1, h.2.2.1, h.2.2.2.1, h.2.2.2.2.1,
    h.2.2.2.2.2.2.2.2 "keep.txt" (by decide) (by decide) (by decide)⟩

/-! ## Claim C10 -/

/-- C10: on a completed task with a stored patch, when the derived PR branch
name already exists, the branch-setup block deletes it and creates a fresh
ref with the same name at the base branch tip (both calls appear in the log,
and the name now resolves to the base sha, discarding the old one), and the
route then proceeds to the patch-application phase on exactly that state. -/
theorem c10_create_pr_resets_existing_branch (taskId : Nat) (task : TaskRec)
    (s : GH) (baseSha oldSha : Nat)
    (h1 : task.status = "completed")
    (h2 : task.git_patch.getD "" ≠ "")
    (h3 : s.failGetBranch task.target_branch = false)
    (h4 : alookup task.target_branch s.refs = some baseSha)
    (h5 : s.failGetBranch ("claude-code-" ++ toString taskId) = false)
    (h6 : alookup ("claude-code-" ++ toString taskId) s.refs = some oldSha)
    (h7 : s.failDeleteRef ("claude-code-" ++ toString taskId) = false)
    (h8 : s.failCreateRef ("claude-code-" ++ toString taskId) = false) :
    (Tasks.setupPrBranch ("claude-code-" ++ toString taskId) baseSha
        (getBranch task.target_branch s).2).1 = some ()
      ∧ alookup ("claude-code-" ++ toString taskId)
          ((Tasks.setupPrBranch ("claude-code-" ++ toString taskId) baseSha
            (getBranch task.target_branch s).2).2).refs = some baseSha
      ∧ Event.deleteRefEv ("claude-code-" ++ toString taskId)
          ∈ ((Tasks.setupPrBranch ("claude-code-" ++ toString taskId) baseSha
            (getBranch task.target_branch s).2).2).log
      ∧ Event.createRefEv ("claude-code-" ++ toString taskId) baseSha
          ∈ ((Tasks.setupPrBranch ("claude-code-" ++ toString taskId) baseSha
            (getBranch task.target_branch s).2).2).log
      ∧ Tasks.create_pull_request taskId task s
          = Tasks.afterBranchSetup task ("claude-code-" ++ toString taskId)
              ((Tasks.setupPrBranch ("claude-code-" ++ toString taskId) baseSha
                (getBranch task.target_branch s).2).2) := by
  refine ⟨?_, ?_, ?_, ?_, ?_⟩
  · simp [Tasks.setupPrBranch, getBranch, deleteRef, createRef, push,
      h3, h4, h5, h6, h7, h8, alookup_aremove_self]
  · simp [Tasks.setupPrBranch, getBranch, deleteRef, createRef, push,
      h3, h4, h5, h6, h7, h8, alookup_aremove_self, alookup]
  · simp [Tasks.setupPrBranch, getBranch, deleteRef, createRef, push,
      h3, h4, h5, h6, h7, h8, alookup_aremove_self]
  · simp [Tasks.setupPrBranch, getBranch, deleteRef, createRef, push,
      h3, h4, h5, h6, h7, h8, alookup_aremove_self]
  · simp [Tasks.create_pull_request, Tasks.setupPrBranch, getBranch, deleteRef,
      createRef, push, h1, h2, h3, h4, h5, h6, h7, h8, alookup_aremove_self]

/-- C10 witness: task 1 with a stale "claude-code-1" branch at commit 3 and
base "main" at commit 7; the branch is reset to 7 before the patch phase. -/
theorem c10_witness :
    (Tasks.setupPrBranch ("claude-code-" ++ toString 1) 7
        (getBranch taskSmallPatch.target_branch ghWithStaleBranch).2).1 = some ()
      ∧ alookup ("claude-code-" ++ toString 1)
          ((Tasks.setupPrBranch ("claude-code-" ++ toString 1) 7
            (getBranch taskSmallPatch.target_branch ghWithStaleBranch).2).2).refs = some 7
      ∧ Event.deleteRefEv ("claude-code-" ++ toString 1)
          ∈ ((Tasks.setupPrBranch ("claude-code-" ++ toString 1) 7
            (getBranch taskSmallPatch.target_branch ghWithStaleBranch).2).2).log
      ∧ Event.createRefEv ("claude-code-" ++ toString 1) 7
          ∈ ((Tasks.setupPrBranch ("claude-code-" ++ toString 1) 7
            (getBranch taskSmallPatch.target_branch ghWithStaleBranch).2).2).log
      ∧ Tasks.create_pull_request 1 taskSmallPatch ghWithStaleBranch
          = Tasks.afterBranchSetup taskSmallPatch ("claude-code-" ++ toString 1)
              ((Tasks.setupPrBranch ("claude-code-" ++ toString 1) 7
                (getBranch taskSmallPatch.target_branch ghWithStaleBranch).2).2) :=
  c10_create_pr_resets_existing_branch 1 taskSmallPatch ghWithStaleBranch 7 3
    (by decide) (by decide) (by decide) (by decide) (by decide) (by decide)
    (by decide) (by decide)
